import Mathlib

/-
Verification of the fmap field-accessor library (src/field.go) against its
specification.  The Go code is shallowly embedded: reflect type kinds become
an inductive `Kind`, Go types a structural inductive `GoType` (the library
never distinguishes named types from their underlying structural types, so
the embedded type universe is structural and reflect assignability coincides
with type identity on it), boxed Go interface values become `GoValue`
(a value paired with its dynamic type), and an instance's memory becomes a
map from byte offsets to typed cells.  Go panics become `Except` errors.
-/

set_option autoImplicit false

namespace Fmap

/-- The reflect.Kind values relevant to field.go: the closed primitive set
dispatched by Get/Set, the composite kinds, pointers, and a sample of the
remaining Go kinds (map, chan, func) that fall outside every dispatch table. -/
inductive Kind where
  | kString | kInt | kInt8 | kInt16 | kInt32 | kInt64
  | kUint | kUint8 | kUint16 | kUint32 | kUint64
  | kFloat32 | kFloat64 | kBool
  | kPtr | kStruct | kSlice | kArray
  | kMap | kChan | kFunc
  deriving DecidableEq

/-- Structural Go types as used by the descriptor: the fourteen primitive
types of the fast path, pointers, structs (identified by a nominal id),
slices, arrays, and representatives of the unsupported kinds. -/
inductive GoType where
  | string | int | int8 | int16 | int32 | int64
  | uint | uint8 | uint16 | uint32 | uint64
  | float32 | float64 | bool
  | ptr (elem : GoType)
  | struct (id : Nat)
  | slice (elem : GoType)
  | array (len : Nat) (elem : GoType)
  | map (key elem : GoType)
  | chan (elem : GoType)
  | func (id : Nat)
  deriving DecidableEq

/-- reflect.Type.Kind. -/
def GoType.kind : GoType → Kind
  | .string => .kString
  | .int => .kInt
  | .int8 => .kInt8
  | .int16 => .kInt16
  | .int32 => .kInt32
  | .int64 => .kInt64
  | .uint => .kUint
  | .uint8 => .kUint8
  | .uint16 => .kUint16
  | .uint32 => .kUint32
  | .uint64 => .kUint64
  | .float32 => .kFloat32
  | .float64 => .kFloat64
  | .bool => .kBool
  | .ptr _ => .kPtr
  | .struct _ => .kStruct
  | .slice _ => .kSlice
  | .array _ _ => .kArray
  | .map _ _ => .kMap
  | .chan _ => .kChan
  | .func _ => .kFunc

/-- A boxed Go value, an empty-interface value: payload plus dynamic type.
Floats are carried as their raw bit patterns, which is all that Get/Set
ever move.  `vPtr t a` is a pointer of type `*t` holding address `a`;
`vComposite t vs` is a struct/slice/array value of type `t`; `vOther t c`
is a value of one of the remaining kinds. -/
inductive GoValue where
  | vString (s : String)
  | vInt (n : Int)
  | vInt8 (n : Int)
  | vInt16 (n : Int)
  | vInt32 (n : Int)
  | vInt64 (n : Int)
  | vUint (n : Nat)
  | vUint8 (n : Nat)
  | vUint16 (n : Nat)
  | vUint32 (n : Nat)
  | vUint64 (n : Nat)
  | vFloat32 (bits : Nat)
  | vFloat64 (bits : Nat)
  | vBool (b : Bool)
  | vPtr (elem : GoType) (addr : Nat)
  | vComposite (ty : GoType) (elts : List GoValue)
  | vOther (ty : GoType) (code : Nat)

/-- Dynamic type of a boxed value (reflect.TypeOf / the type tested by a
Go type assertion). -/
def GoValue.typeOf : GoValue → GoType
  | .vString _ => .string
  | .vInt _ => .int
  | .vInt8 _ => .int8
  | .vInt16 _ => .int16
  | .vInt32 _ => .int32
  | .vInt64 _ => .int64
  | .vUint _ => .uint
  | .vUint8 _ => .uint8
  | .vUint16 _ => .uint16
  | .vUint32 _ => .uint32
  | .vUint64 _ => .uint64
  | .vFloat32 _ => .float32
  | .vFloat64 _ => .float64
  | .vBool _ => .bool
  | .vPtr t _ => .ptr t
  | .vComposite t _ => t
  | .vOther t _ => t

/-- The field's tag table: `reflect.StructTag` viewed as the key/value
association it encodes, queried by `Lookup` (first matching key wins). -/
def lookupTag : List (String × String) → String → Option String
  | [], _ => none
  | (k, v) :: rest, key => if k = key then some v else lookupTag rest key

def commaChar : Char := ','

/-- The empty string. -/
def noStr : String := ""

/-- First comma-delimited segment of a tag value, `strings.Split(val, ",")[0]`:
the characters of `val` before its first comma (the whole of `val` when it
has none; the split at a non-empty separator is never empty, so the source's
`len(vals) > 0` guard is always true). -/
def splitFirst (val : String) : String :=
  String.mk (val.toList.takeWhile (fun c => c != commaChar))

/-- The `tagPath` computed by the first six lines of GetTagPath: the first
comma-delimited segment of the tag value when the key is present and that
segment is non-empty, and the empty string otherwise. -/
def tagSeg (tg : List (String × String)) (tag : String) : String :=
  match lookupTag tg tag with
  | none => ""
  | some val => if (splitFirst val).length > 0 then splitFirst val else ""

/-- The descriptor `field`: the embedded reflect.StructField data
(Name, PkgPath, Type, Tag, Offset, Index, Anonymous) plus `structPath`
and the parent back-reference.  The parent chain is a subterm, so it is
finite and acyclic by construction, as the builder guarantees. -/
inductive field where
  | mk (Name PkgPath : String) (Typ : GoType) (Tag : List (String × String))
      (Offset : Nat) (Index : List Nat) (Anonymous : Bool)
      (structPath : String) (parent : Option field)

def field.Name : field → String
  | .mk n _ _ _ _ _ _ _ _ => n

def field.PkgPath : field → String
  | .mk _ pk _ _ _ _ _ _ _ => pk

def field.Typ : field → GoType
  | .mk _ _ ty _ _ _ _ _ _ => ty

def field.Tag : field → List (String × String)
  | .mk _ _ _ tg _ _ _ _ _ => tg

def field.Offset : field → Nat
  | .mk _ _ _ _ off _ _ _ _ => off

def field.Index : field → List Nat
  | .mk _ _ _ _ _ ix _ _ _ => ix

def field.Anonymous : field → Bool
  | .mk _ _ _ _ _ _ an _ _ => an

def field.GetStructPath : field → String
  | .mk _ _ _ _ _ _ _ sp _ => sp

def field.parent : field → Option field
  | .mk _ _ _ _ _ _ _ _ par => par

/-- GetTagPath from field.go: resolve this field's own tag segment; an empty
segment short-circuits to the empty string; otherwise combine with the
recursively resolved parent path under the ignoreParentTagMissing policy. -/
def field.GetTagPath : field → String → Bool → String
  | .mk _ _ _ tg _ _ _ _ par, tag, ignoreParentTagMissing =>
    let tagPath := tagSeg tg tag
    if tagPath = "" then tagPath
    else
      match par with
      | none => tagPath
      | some p =>
        let parentTag := field.GetTagPath p tag ignoreParentTagMissing
        if parentTag = "" ∧ ignoreParentTagMissing = false then ""
        else if parentTag = "" then tagPath
        else parentTag ++ "." ++ tagPath

/-- Length of the parent chain of a descriptor. -/
def field.chainLen : field → Nat
  | .mk _ _ _ _ _ _ _ _ none => 0
  | .mk _ _ _ _ _ _ _ _ (some p) => p.chainLen + 1

/-- GetTagPath instrumented with explicit fuel: each recursive step consumes
one unit, and the computation reports `none` when the fuel runs out before
the parent chain does. -/
def getTagPathFuel : Nat → field → String → Bool → Option String
  | 0, _, _, _ => none
  | fuel + 1, .mk _ _ _ tg _ _ _ _ par, tag, ignoreParentTagMissing =>
    let tagPath := tagSeg tg tag
    if tagPath = "" then some tagPath
    else
      match par with
      | none => some tagPath
      | some p =>
        match getTagPathFuel fuel p tag ignoreParentTagMissing with
        | none => none
        | some parentTag =>
          if parentTag = "" ∧ ignoreParentTagMissing = false then some noStr
          else if parentTag = "" then some tagPath
          else some (parentTag ++ "." ++ tagPath)

/-- Errors corresponding to the panics a call can raise: the Get/Set default
dispatch panic, a failed type assertion `val.(T)` on Set's fast path, the
reflect `Value.Set` panic in Set's generic fallback, and the undefined
behavior of a typed raw-memory read at a type the cell does not hold. -/
inductive AccessError where
  | unsupportedKind
  | assertionFailed
  | typeMismatch
  | invalidRead
  deriving DecidableEq

/-- An instance's memory: one typed cell per field offset. -/
def Mem := Nat → Option GoValue

def emptyMem : Mem := fun _ => none

def writeMem (m : Mem) (off : Nat) (v : GoValue) : Mem :=
  fun o => if o = off then some v else m o

/-- getPtr from field.go: the field's address is the instance's base address
plus the field's byte offset; instances are modelled base-zero, so the
address is the offset. -/
def field.getPtr (f : field) : Nat := f.Offset

/-- getPtrValue from field.go, `*(*T)(ptr)`: a typed raw-memory read.  It is
defined when the cell holds a value of exactly type `T`; reading a cell at
any other type reinterprets foreign bits and is undefined behavior, modelled
as `invalidRead`. -/
def getPtrValue (T : GoType) (m : Mem) (ptr : Nat) : Except AccessError GoValue :=
  match m ptr with
  | some v => if v.typeOf = T then .ok v else .error .invalidRead
  | none => .error .invalidRead

/-- setPtrValue from field.go, `*(*T)(ptr) = val.(T)`: the type assertion
panics unless `val`'s dynamic type is exactly `T`, otherwise the value is
stored at the location. -/
def setPtrValue (T : GoType) (m : Mem) (ptr : Nat) (val : GoValue) :
    Except AccessError Mem :=
  if val.typeOf = T then .ok (writeMem m ptr val) else .error .assertionFailed

/-- Set's generic fallback, `reflect.NewAt(f.Type, ptr).Elem().Set(reflect.ValueOf(val))`:
reflect requires the source's dynamic type to be assignable to `T` and panics
otherwise.  In the structural type universe embedded here (no named types,
no interfaces, no channel directions) Go assignability is type identity. -/
def genericAssign (T : GoType) (m : Mem) (ptr : Nat) (val : GoValue) :
    Except AccessError Mem :=
  if val.typeOf = T then .ok (writeMem m ptr val) else .error .typeMismatch

/-- Body of Get from field.go: dispatch on the field type's kind, after
replacing it by the pointee's kind when the declared type is a pointer.
Pointer-primitive cases read a `*prim` typed value; composite cases read
`reflect.NewAt(f.Type, ptr).Elem()`, a value of the declared type `ty`
itself (for a pointer-typed field that is the pointer, not the pointee);
every other kind panics. -/
def getImpl (ty : GoType) (ptr : Nat) (m : Mem) : Except AccessError GoValue :=
  match ty with
  | .ptr elem =>
    match elem.kind with
    | .kString => getPtrValue (.ptr .string) m ptr
    | .kInt => getPtrValue (.ptr .int) m ptr
    | .kInt8 => getPtrValue (.ptr .int8) m ptr
    | .kInt16 => getPtrValue (.ptr .int16) m ptr
    | .kInt32 => getPtrValue (.ptr .int32) m ptr
    | .kInt64 => getPtrValue (.ptr .int64) m ptr
    | .kUint => getPtrValue (.ptr .uint) m ptr
    | .kUint8 => getPtrValue (.ptr .uint8) m ptr
    | .kUint16 => getPtrValue (.ptr .uint16) m ptr
    | .kUint32 => getPtrValue (.ptr .uint32) m ptr
    | .kUint64 => getPtrValue (.ptr .uint64) m ptr
    | .kFloat32 => getPtrValue (.ptr .float32) m ptr
    | .kFloat64 => getPtrValue (.ptr .float64) m ptr
    | .kBool => getPtrValue (.ptr .bool) m ptr
    | .kStruct => getPtrValue (.ptr elem) m ptr
    | .kSlice => getPtrValue (.ptr elem) m ptr
    | .kArray => getPtrValue (.ptr elem) m ptr
    | _ => .error .unsupportedKind
  | _ =>
    match ty.kind with
    | .kString => getPtrValue .string m ptr
    | .kInt => getPtrValue .int m ptr
    | .kInt8 => getPtrValue .int8 m ptr
    | .kInt16 => getPtrValue .int16 m ptr
    | .kInt32 => getPtrValue .int32 m ptr
    | .kInt64 => getPtrValue .int64 m ptr
    | .kUint => getPtrValue .uint m ptr
    | .kUint8 => getPtrValue .uint8 m ptr
    | .kUint16 => getPtrValue .uint16 m ptr
    | .kUint32 => getPtrValue .uint32 m ptr
    | .kUint64 => getPtrValue .uint64 m ptr
    | .kFloat32 => getPtrValue .float32 m ptr
    | .kFloat64 => getPtrValue .float64 m ptr
    | .kBool => getPtrValue .bool m ptr
    | .kStruct => getPtrValue ty m ptr
    | .kSlice => getPtrValue ty m ptr
    | .kArray => getPtrValue ty m ptr
    | _ => .error .unsupportedKind

def field.Get (f : field) (m : Mem) : Except AccessError GoValue :=
  getImpl f.Typ f.getPtr m

/-- Body of Set from field.go: same kind dispatch as Get; the fourteen
primitive kinds (direct or behind a pointer) go through setPtrValue's typed
write, and everything else falls to the generic reflect assignment at the
field's declared type (for a pointer-typed field, the pointer type itself). -/
def setImpl (ty : GoType) (ptr : Nat) (m : Mem) (val : GoValue) :
    Except AccessError Mem :=
  match ty with
  | .ptr elem =>
    match elem.kind with
    | .kString => setPtrValue (.ptr .string) m ptr val
    | .kInt => setPtrValue (.ptr .int) m ptr val
    | .kInt8 => setPtrValue (.ptr .int8) m ptr val
    | .kInt16 => setPtrValue (.ptr .int16) m ptr val
    | .kInt32 => setPtrValue (.ptr .int32) m ptr val
    | .kInt64 => setPtrValue (.ptr .int64) m ptr val
    | .kUint => setPtrValue (.ptr .uint) m ptr val
    | .kUint8 => setPtrValue (.ptr .uint8) m ptr val
    | .kUint16 => setPtrValue (.ptr .uint16) m ptr val
    | .kUint32 => setPtrValue (.ptr .uint32) m ptr val
    | .kUint64 => setPtrValue (.ptr .uint64) m ptr val
    | .kFloat32 => setPtrValue (.ptr .float32) m ptr val
    | .kFloat64 => setPtrValue (.ptr .float64) m ptr val
    | .kBool => setPtrValue (.ptr .bool) m ptr val
    | _ => genericAssign ty m ptr val
  | _ =>
    match ty.kind with
    | .kString => setPtrValue .string m ptr val
    | .kInt => setPtrValue .int m ptr val
    | .kInt8 => setPtrValue .int8 m ptr val
    | .kInt16 => setPtrValue .int16 m ptr val
    | .kInt32 => setPtrValue .int32 m ptr val
    | .kInt64 => setPtrValue .int64 m ptr val
    | .kUint => setPtrValue .uint m ptr val
    | .kUint8 => setPtrValue .uint8 m ptr val
    | .kUint16 => setPtrValue .uint16 m ptr val
    | .kUint32 => setPtrValue .uint32 m ptr val
    | .kUint64 => setPtrValue .uint64 m ptr val
    | .kFloat32 => setPtrValue .float32 m ptr val
    | .kFloat64 => setPtrValue .float64 m ptr val
    | .kBool => setPtrValue .bool m ptr val
    | _ => genericAssign ty m ptr val

def field.Set (f : field) (m : Mem) (val : GoValue) : Except AccessError Mem :=
  setImpl f.Typ f.getPtr m val

/-- GetPtr from field.go, `reflect.NewAt(f.Type, f.getPtr(obj)).Interface()`:
a boxed pointer of type `*f.Type` holding the field's address. -/
def field.GetPtr (f : field) : GoValue :=
  GoValue.vPtr f.Typ f.getPtr

/-- An assignment `*p = v` performed by a caller through a pointer obtained
from GetPtr: a typed store through a `*t` pointer, defined for values of
exactly type `t`. -/
def storeThrough (p : GoValue) (m : Mem) (v : GoValue) : Except AccessError Mem :=
  match p with
  | .vPtr t a => if v.typeOf = t then .ok (writeMem m a v) else .error .assertionFailed
  | _ => .error .assertionFailed

/-- The fourteen primitive kinds of the fast-path dispatch. -/
def primKind (k : Kind) : Bool :=
  match k with
  | .kString | .kInt | .kInt8 | .kInt16 | .kInt32 | .kInt64
  | .kUint | .kUint8 | .kUint16 | .kUint32 | .kUint64
  | .kFloat32 | .kFloat64 | .kBool => true
  | _ => false

/-- Whether the declared type takes the fast path: a primitive kind, directly
or behind one pointer. -/
def primT (t : GoType) : Bool :=
  match t with
  | .ptr e => primKind e.kind
  | t => primKind t.kind

/-- The kinds Get recognizes: the primitive set plus struct, slice, array. -/
def getKindSupported (k : Kind) : Bool :=
  primKind k || (match k with | .kStruct | .kSlice | .kArray => true | _ => false)

/-- Whether Get supports the declared type: its kind, dereferenced once when
the type is a pointer, lies in the recognized set. -/
def getSupported (t : GoType) : Bool :=
  match t with
  | .ptr e => getKindSupported e.kind
  | t => getKindSupported t.kind

/-! Concrete descriptors used to exercise the theorems. -/

def jsonKey : String := "json"
def tagX : String := "x"
def tagP : String := "p"
def tagG : String := "g"
def strA : String := "a"
def gpx : String := "g.p.x"

def parentNoTag : field := .mk strA noStr (.struct 2) [] 0 [] false strA none
def leafX : field := .mk strA noStr .int [(jsonKey, tagX)] 4 [1] false strA (some parentNoTag)
def grandG : field := .mk strA noStr (.struct 3) [(jsonKey, tagG)] 0 [] false strA none
def midP : field := .mk strA noStr (.struct 4) [(jsonKey, tagP)] 0 [] false strA (some grandG)
def leafGPX : field := .mk strA noStr .int [(jsonKey, tagX)] 0 [] false strA (some midP)

/-- Unfolding lemma: GetTagPath on a constructed descriptor. -/
theorem getTagPath_mk (n pk : String) (ty : GoType) (tg : List (String × String))
    (off : Nat) (ix : List Nat) (an : Bool) (sp : String) (par : Option field)
    (tag : String) (ig : Bool) :
    field.GetTagPath (.mk n pk ty tg off ix an sp par) tag ig =
      (let tagPath := tagSeg tg tag
       if tagPath = "" then tagPath
       else
         match par with
         | none => tagPath
         | some p =>
           let parentTag := field.GetTagPath p tag ig
           if parentTag = "" ∧ ig = false then ""
           else if parentTag = "" then tagPath
           else parentTag ++ "." ++ tagPath) := by
  rw [field.GetTagPath.eq_def]

/-- Unfolding lemma: the fueled GetTagPath on a constructed descriptor. -/
theorem getTagPathFuel_mk (fuel : Nat) (n pk : String) (ty : GoType)
    (tg : List (String × String)) (off : Nat) (ix : List Nat) (an : Bool)
    (sp : String) (par : Option field) (tag : String) (ig : Bool) :
    getTagPathFuel (fuel + 1) (.mk n pk ty tg off ix an sp par) tag ig =
      (let tagPath := tagSeg tg tag
       if tagPath = "" then some tagPath
       else
         match par with
         | none => some tagPath
         | some p =>
           match getTagPathFuel fuel p tag ig with
           | none => none
           | some parentTag =>
             if parentTag = "" ∧ ig = false then some noStr
             else if parentTag = "" then some tagPath
             else some (parentTag ++ "." ++ tagPath)) := by
  rw [getTagPathFuel.eq_def]

/-- C4: when the tag key is absent from the field's own tag table, or the
first comma-delimited segment of its value is empty, GetTagPath returns the
empty string, whatever the parent chain and for both values of
ignoreParentTagMissing. -/
theorem getTagPath_own_tag_missing (f : field) (tag : String) (ig : Bool)
    (h : lookupTag f.Tag tag = none ∨
      ∃ v, lookupTag f.Tag tag = some v ∧ splitFirst v = "") :
    f.GetTagPath tag ig = "" := by
  obtain ⟨n, pk, ty, tg, off, ix, an, sp, par⟩ := f
  have hseg : tagSeg tg tag = "" := by
    simp only [field.Tag] at h
    rcases h with h | ⟨v, hv, hfirst⟩
    · simp [tagSeg, h]
    · simp [tagSeg, hv, hfirst]
  simp [getTagPath_mk, hseg]

theorem getTagPath_own_tag_missing_witness :
    field.GetTagPath parentNoTag jsonKey true = "" ∧
    field.GetTagPath parentNoTag jsonKey false = "" :=
  ⟨getTagPath_own_tag_missing parentNoTag jsonKey true (Or.inl rfl),
   getTagPath_own_tag_missing parentNoTag jsonKey false (Or.inl rfl)⟩

/-- C5: when the field's own tag segment is non-empty but the parent's
recursively resolved tag path is empty, GetTagPath returns the empty string
under ignoreParentTagMissing = false and the field's own segment alone under
ignoreParentTagMissing = true. -/
theorem getTagPath_parent_missing (f p : field) (tag : String) (ig : Bool)
    (hpar : f.parent = some p)
    (hseg : tagSeg f.Tag tag ≠ "")
    (hp : p.GetTagPath tag ig = "") :
    f.GetTagPath tag ig = if ig then tagSeg f.Tag tag else "" := by
  obtain ⟨n, pk, ty, tg, off, ix, an, sp, par⟩ := f
  simp only [field.parent] at hpar
  subst hpar
  simp only [field.Tag] at hseg ⊢
  cases ig <;> simp [getTagPath_mk, hseg, hp]

theorem getTagPath_parent_missing_witness :
    field.GetTagPath leafX jsonKey false = "" ∧
    field.GetTagPath leafX jsonKey true = tagX := by
  refine ⟨?_, ?_⟩
  · rw [getTagPath_parent_missing leafX parentNoTag jsonKey false rfl
      (by decide) (by decide)]
    decide
  · rw [getTagPath_parent_missing leafX parentNoTag jsonKey true rfl
      (by decide) (by decide)]
    decide

/-- C6: when the field's own tag segment is non-empty and the parent's
recursively resolved tag path is non-empty, GetTagPath returns the parent
path, a dot, then the field's own segment (so a chain tagged g / p / x
resolves to g.p.x for both flag values). -/
theorem getTagPath_parent_nonempty (f p : field) (tag : String) (ig : Bool)
    (hpar : f.parent = some p)
    (hseg : tagSeg f.Tag tag ≠ "")
    (hp : p.GetTagPath tag ig ≠ "") :
    f.GetTagPath tag ig = p.GetTagPath tag ig ++ "." ++ tagSeg f.Tag tag := by
  obtain ⟨n, pk, ty, tg, off, ix, an, sp, par⟩ := f
  simp only [field.parent] at hpar
  subst hpar
  simp only [field.Tag] at hseg ⊢
  simp [getTagPath_mk, hseg, hp]

theorem getTagPath_parent_nonempty_witness :
    field.GetTagPath leafGPX jsonKey false = gpx ∧
    field.GetTagPath leafGPX jsonKey true = gpx := by
  refine ⟨?_, ?_⟩
  · rw [getTagPath_parent_nonempty leafGPX midP jsonKey false rfl
      (by decide) (by decide)]
    decide
  · rw [getTagPath_parent_nonempty leafGPX midP jsonKey true rfl
      (by decide) (by decide)]
    decide

/-- C9: GetTagPath recurses only on the strict parent, so its recursion
depth is bounded by the parent-chain length: with any fuel strictly larger
than the chain length, the fuel-instrumented computation finishes and agrees
with GetTagPath. -/
theorem getTagPath_fuel_bounded (f : field) (tag : String) (ig : Bool) (fuel : Nat)
    (h : f.chainLen < fuel) :
    getTagPathFuel fuel f tag ig = some (f.GetTagPath tag ig) := by
  induction fuel generalizing f with
  | zero => omega
  | succ n ih =>
    obtain ⟨nm, pk, ty, tg, off, ix, an, sp, par⟩ := f
    cases par with
    | none =>
      by_cases h1 : tagSeg tg tag = "" <;>
        simp [getTagPathFuel_mk, getTagPath_mk, h1]
    | some p =>
      have hc : p.chainLen < n := by
        have he : field.chainLen (.mk nm pk ty tg off ix an sp (some p)) =
            p.chainLen + 1 := rfl
        rw [he] at h
        omega
      simp only [getTagPathFuel_mk, getTagPath_mk, ih p hc, noStr]
      by_cases h1 : tagSeg tg tag = "" <;>
        by_cases h2 : field.GetTagPath p tag ig = "" <;>
          cases ig <;> simp_all

theorem getTagPath_fuel_bounded_witness :
    getTagPathFuel 3 leafGPX jsonKey true =
      some (field.GetTagPath leafGPX jsonKey true) :=
  getTagPath_fuel_bounded leafGPX jsonKey true 3 (by decide)

/-- In every supported branch of Get's dispatch the hard-coded read type
coincides with the field's declared type, so on a supported type Get is a
typed read of that type. -/
theorem getImpl_eq_getPtrValue (t : GoType) (off : Nat) (m : Mem)
    (h : getSupported t = true) :
    getImpl t off m = getPtrValue t m off := by
  cases t
  case ptr e =>
    cases e <;>
      first
        | rfl
        | simp [getSupported, getKindSupported, primKind, GoType.kind] at h
  all_goals
    first
      | rfl
      | simp [getSupported, getKindSupported, primKind, GoType.kind] at h

/-- Off the recognized kind set, Get's dispatch lands on the default branch. -/
theorem getImpl_unsupported (t : GoType) (off : Nat) (m : Mem)
    (h : getSupported t = false) :
    getImpl t off m = .error .unsupportedKind := by
  cases t
  case ptr e =>
    cases e <;>
      first
        | rfl
        | simp [getSupported, getKindSupported, primKind, GoType.kind] at h
  all_goals
    first
      | rfl
      | simp [getSupported, getKindSupported, primKind, GoType.kind] at h

/-- A typed raw-memory read can fail only as an invalid read, never with the
dispatcher's UnsupportedKind error. -/
theorem getPtrValue_ne_unsupported (T : GoType) (m : Mem) (ptr : Nat) :
    getPtrValue T m ptr ≠ .error .unsupportedKind := by
  unfold getPtrValue
  cases m ptr with
  | none => simp
  | some v => by_cases h : v.typeOf = T <;> simp [h]

/-- On a fast-path type, Set's dispatch is the typed write at the declared
type itself. -/
theorem setImpl_eq_setPtrValue (t : GoType) (off : Nat) (m : Mem) (v : GoValue)
    (h : primT t = true) :
    setImpl t off m v = setPtrValue t m off v := by
  cases t
  case ptr e =>
    cases e <;> first | rfl | simp [primT, primKind, GoType.kind] at h
  all_goals first | rfl | simp [primT, primKind, GoType.kind] at h

/-- Off the fast path, Set's dispatch is the generic reflect assignment at
the declared type. -/
theorem setImpl_eq_genericAssign (t : GoType) (off : Nat) (m : Mem) (v : GoValue)
    (h : primT t = false) :
    setImpl t off m v = genericAssign t m off v := by
  cases t
  case ptr e =>
    cases e <;> first | rfl | simp [primT, primKind, GoType.kind] at h
  all_goals first | rfl | simp [primT, primKind, GoType.kind] at h

/-- Every fast-path type is Get-supported. -/
theorem primT_getSupported (t : GoType) (h : primT t = true) :
    getSupported t = true := by
  cases t <;> simp_all [primT, getSupported, getKindSupported]

def intField : field := .mk strA noStr .int [] 0 [] false strA none
def ptrIntField : field := .mk strA noStr (.ptr .int) [] 0 [] false strA none
def structTy : GoType := .struct 1
def structField : field := .mk strA noStr structTy [] 0 [] false strA none
def mapField : field := .mk strA noStr (.map .string .int) [] 0 [] false strA none
def innerStruct : GoType := .struct 0
def ptrStructField : field :=
  .mk strA noStr (.ptr innerStruct) [] 0 [] false strA none
def ptrStructMem : Mem := writeMem emptyMem 0 (GoValue.vPtr innerStruct 42)

/-- C1: for every field whose declared type is one of the fourteen supported
primitive types, directly or behind one pointer, and every value of exactly
that declared type, Set stores the value at the field's offset and a
subsequent Get returns it unchanged. -/
theorem set_then_get_roundtrip (f : field) (m : Mem) (v : GoValue)
    (hk : primT f.Typ = true) (hv : v.typeOf = f.Typ) :
    f.Set m v = .ok (writeMem m f.Offset v) ∧
    f.Get (writeMem m f.Offset v) = .ok v := by
  constructor
  · simp only [field.Set, field.getPtr]
    rw [setImpl_eq_setPtrValue _ _ _ _ hk]
    simp [setPtrValue, hv]
  · simp only [field.Get, field.getPtr]
    rw [getImpl_eq_getPtrValue _ _ _ (primT_getSupported _ hk)]
    simp [getPtrValue, writeMem, hv]

theorem set_then_get_roundtrip_witness :
    (intField.Set emptyMem (GoValue.vInt 7) =
        .ok (writeMem emptyMem 0 (GoValue.vInt 7)) ∧
      intField.Get (writeMem emptyMem 0 (GoValue.vInt 7)) =
        .ok (GoValue.vInt 7)) ∧
    (ptrIntField.Set emptyMem (GoValue.vPtr .int 5) =
        .ok (writeMem emptyMem 0 (GoValue.vPtr .int 5)) ∧
      ptrIntField.Get (writeMem emptyMem 0 (GoValue.vPtr .int 5)) =
        .ok (GoValue.vPtr .int 5)) :=
  ⟨set_then_get_roundtrip intField emptyMem (GoValue.vInt 7) rfl rfl,
   set_then_get_roundtrip ptrIntField emptyMem (GoValue.vPtr .int 5) rfl rfl⟩

/-- C2: for every field that dispatches to Set's generic fallback (struct,
slice, array, pointer to a non-primitive, or any kind outside the closed
primitive set), Set succeeds exactly when the value's dynamic type equals
the field's declared type, storing the value at the field's offset, and
otherwise fails with the TypeMismatch error and produces no updated
instance. -/
theorem set_generic_exact_type (f : field) (m : Mem) (v : GoValue)
    (hk : primT f.Typ = false) :
    (v.typeOf = f.Typ → f.Set m v = .ok (writeMem m f.Offset v)) ∧
    (v.typeOf ≠ f.Typ → f.Set m v = .error .typeMismatch) := by
  refine ⟨fun hv => ?_, fun hv => ?_⟩ <;>
    simp only [field.Set, field.getPtr] <;>
    rw [setImpl_eq_genericAssign _ _ _ _ hk] <;>
    simp [genericAssign, hv]

theorem set_generic_exact_type_witness :
    structField.Set emptyMem (GoValue.vComposite structTy []) =
      .ok (writeMem emptyMem 0 (GoValue.vComposite structTy [])) ∧
    structField.Set emptyMem (GoValue.vInt 3) = .error .typeMismatch :=
  ⟨(set_generic_exact_type structField emptyMem
      (GoValue.vComposite structTy []) rfl).1 rfl,
   (set_generic_exact_type structField emptyMem (GoValue.vInt 3) rfl).2
      (by decide)⟩

/-- C3: Get fails with the UnsupportedKind error precisely off the
recognized kind set: when the field's (pointer-dereferenced) kind lies
outside string/integer/unsigned/float/bool/struct/slice/array, Get returns
that error, and when it lies inside, Get never returns it. -/
theorem get_unsupported_kind (f : field) (m : Mem) :
    (getSupported f.Typ = false → f.Get m = .error .unsupportedKind) ∧
    (getSupported f.Typ = true → f.Get m ≠ .error .unsupportedKind) := by
  constructor
  · intro h
    simp only [field.Get, field.getPtr]
    exact getImpl_unsupported _ _ _ h
  · intro h
    simp only [field.Get, field.getPtr]
    rw [getImpl_eq_getPtrValue _ _ _ h]
    exact getPtrValue_ne_unsupported _ _ _

theorem get_unsupported_kind_witness :
    mapField.Get emptyMem = .error .unsupportedKind ∧
    intField.Get emptyMem ≠ .error .unsupportedKind :=
  ⟨(get_unsupported_kind mapField emptyMem).1 rfl,
   (get_unsupported_kind intField emptyMem).2 rfl⟩

/-- C7 counterexample: a pointer-to-struct field whose memory cell holds a
pointer.  Get returns that raw pointer value, whose dynamic type is the
pointer type and not the dereferenced struct type, and a read at the
dereferenced composite type is not what happens on this cell. -/
theorem get_ptr_composite_counterexample :
    ptrStructField.Get ptrStructMem = .ok (GoValue.vPtr innerStruct 42) ∧
    GoValue.typeOf (GoValue.vPtr innerStruct 42) ≠ innerStruct ∧
    getPtrValue innerStruct ptrStructMem 0 = .error .invalidRead :=
  ⟨rfl, by decide, rfl⟩

/-- C7 amended: for a field of pointer type whose dereferenced kind is
struct, slice, or array, Get is a typed read of the field's declared
pointer type at the field's offset: it returns the stored pointer value
itself, not a dereferenced structural copy. -/
theorem get_ptr_composite_reads_pointer (f : field) (e : GoType) (m : Mem)
    (he : f.Typ = .ptr e)
    (hk : e.kind = .kStruct ∨ e.kind = .kSlice ∨ e.kind = .kArray) :
    f.Get m = getPtrValue f.Typ m f.Offset := by
  have hs : getSupported f.Typ = true := by
    rw [he]
    rcases hk with h | h | h <;>
      simp [getSupported, getKindSupported, primKind, h]
  simp only [field.Get, field.getPtr]
  exact getImpl_eq_getPtrValue _ _ _ hs

theorem get_ptr_composite_reads_pointer_witness :
    ptrStructField.Get ptrStructMem =
      getPtrValue (GoType.ptr innerStruct) ptrStructMem 0 :=
  get_ptr_composite_reads_pointer ptrStructField innerStruct ptrStructMem rfl
    (Or.inl rfl)

/-- C8: GetPtr, for every field with no restriction whatsoever on its kind,
returns the boxed pointer of pointer-to-declared-type type holding the
field's offset address; a store through that pointer succeeds, produces the
instance updated exactly at the field's offset, and the stored value is
observable there; moreover, whenever the field's kind is one Get supports,
a subsequent Get returns the stored value. -/
theorem getPtr_reference (f : field) (m : Mem) (v : GoValue)
    (hv : v.typeOf = f.Typ) :
    GoValue.typeOf f.GetPtr = .ptr f.Typ ∧
    storeThrough f.GetPtr m v = .ok (writeMem m f.Offset v) ∧
    (writeMem m f.Offset v) f.Offset = some v ∧
    (getSupported f.Typ = true → f.Get (writeMem m f.Offset v) = .ok v) := by
  refine ⟨rfl, ?_, ?_, fun hs => ?_⟩
  · simp [field.GetPtr, storeThrough, field.getPtr, hv]
  · simp [writeMem]
  · simp only [field.Get, field.getPtr]
    rw [getImpl_eq_getPtrValue _ _ _ hs]
    simp [getPtrValue, writeMem, hv]

theorem getPtr_reference_witness :
    (GoValue.typeOf mapField.GetPtr = .ptr (GoType.map .string .int) ∧
      storeThrough mapField.GetPtr emptyMem (GoValue.vOther (.map .string .int) 0) =
        .ok (writeMem emptyMem 0 (GoValue.vOther (.map .string .int) 0)) ∧
      (writeMem emptyMem 0 (GoValue.vOther (.map .string .int) 0)) 0 =
        some (GoValue.vOther (.map .string .int) 0) ∧
      (getSupported (field.Typ mapField) = true →
        mapField.Get (writeMem emptyMem 0 (GoValue.vOther (.map .string .int) 0)) =
          .ok (GoValue.vOther (.map .string .int) 0))) ∧
    (GoValue.typeOf intField.GetPtr = .ptr GoType.int ∧
      storeThrough intField.GetPtr emptyMem (GoValue.vInt 9) =
        .ok (writeMem emptyMem 0 (GoValue.vInt 9)) ∧
      (writeMem emptyMem 0 (GoValue.vInt 9)) 0 = some (GoValue.vInt 9) ∧
      (getSupported (field.Typ intField) = true →
        intField.Get (writeMem emptyMem 0 (GoValue.vInt 9)) =
          .ok (GoValue.vInt 9))) :=
  ⟨getPtr_reference mapField emptyMem (GoValue.vOther (.map .string .int) 0) rfl,
   getPtr_reference intField emptyMem (GoValue.vInt 9) rfl⟩

/-- C10: the fast path is type-strict as well: for a field of primitive
kind, directly or behind one pointer, Set with a value whose dynamic type
is not exactly the declared type fails on the typed write's assertion and
performs no write. -/
theorem set_fast_path_strict (f : field) (m : Mem) (v : GoValue)
    (hk : primT f.Typ = true) (hv : v.typeOf ≠ f.Typ) :
    f.Set m v = .error .assertionFailed := by
  simp only [field.Set, field.getPtr]
  rw [setImpl_eq_setPtrValue _ _ _ _ hk]
  simp [setPtrValue, hv]

theorem set_fast_path_strict_witness :
    intField.Set emptyMem (GoValue.vInt8 1) = .error .assertionFailed :=
  set_fast_path_strict intField emptyMem (GoValue.vInt8 1) rfl (by decide)

end Fmap
